import Mathlib

set_option linter.unusedVariables false
set_option linter.unnecessarySeqFocus false

/-
Verification development for the diagnostics pass of fish-lsp
(src/diagnostics/validate.ts).

The pass walks a parsed syntax tree of a fish script and accumulates
diagnostics.  The embedding below translates the functions of validate.ts
into Lean; the node-type predicates, the sibling-search helper and the
document handle live in modules that are not part of the source tree and
are modelled from the specification (each such definition carries a
doc comment starting with "Modelled from the spec:").
-/

/-- Modelled from the spec: the closed set of node-type tags used by the
diagnostics pass (the spec's data model lists command, function-definition,
if-statement, else-clause, switch-statement, case-clause, return-statement,
variable-definition, error, ...).  `command_name` tags the name word of a
command, `end_tok` tags the block-terminator keyword token. -/
inductive NodeType where
  | program
  | command
  | command_name
  | word
  | end_tok
  | error_node
  | function_definition
  | function_definition_name
  | if_statement
  | else_clause
  | else_if_clause
  | switch_statement
  | case_clause
  | return_statement
  | variable_definition
  | conditional_execution
  | for_statement
  | while_statement
  | begin_statement
deriving DecidableEq, Repr

/-- A read-only syntax-tree node: a type tag, the raw source text, the
tree-sitter "named" flag, and the ordered list of all children. -/
inductive SyntaxNode : Type where
  | mk (type : NodeType) (text : String) (named : Bool) (children : List SyntaxNode)

def SyntaxNode.type : SyntaxNode → NodeType
  | .mk t _ _ _ => t

def SyntaxNode.text : SyntaxNode → String
  | .mk _ x _ _ => x

def SyntaxNode.named : SyntaxNode → Bool
  | .mk _ _ b _ => b

def SyntaxNode.children : SyntaxNode → List SyntaxNode
  | .mk _ _ _ cs => cs

@[simp] theorem SyntaxNode.type_mk (t x b cs) : (SyntaxNode.mk t x b cs).type = t := rfl
@[simp] theorem SyntaxNode.text_mk (t x b cs) : (SyntaxNode.mk t x b cs).text = x := rfl
@[simp] theorem SyntaxNode.named_mk (t x b cs) : (SyntaxNode.mk t x b cs).named = b := rfl
@[simp] theorem SyntaxNode.children_mk (t x b cs) : (SyntaxNode.mk t x b cs).children = cs := rfl

/-- The semantically-named children, in order (tree-sitter `namedChildren`). -/
def SyntaxNode.namedChildren (n : SyntaxNode) : List SyntaxNode :=
  n.children.filter (fun c => c.named)

theorem SyntaxNode.sizeOf_children_lt (n : SyntaxNode) : sizeOf n.children < sizeOf n := by
  cases n with
  | mk t x b cs => simp only [SyntaxNode.children_mk, SyntaxNode.mk.sizeOf_spec]; omega

/-- Modelled from the spec: the external document handle, exposing the
autoload status and the expected autoload name (`isAutoLoaded()`,
`getAutoLoadName()`). -/
structure LspDocument where
  isAutoLoaded : Bool
  getAutoLoadName : String

/-- The closed enumeration of diagnostic codes (./errorCodes). -/
inductive ErrorCode where
  | missingEnd
  | extraEnd
  | syntaxError
  | unreachableCode
  | duplicateFunctionName
  | missingAutoloadedFunctionName
  | privateHelperFunction
  | universalVariable
  | pathVariable
  | pathFlag
deriving DecidableEq, Repr

/-- A diagnostic record: the node it is anchored on and its code.  Range,
message and severity are produced by the external factory (./create) and
carry no information beyond the node and the code. -/
structure Diagnostic where
  node : SyntaxNode
  code : ErrorCode

/-- Modelled from the spec: the external factory mapping
(node, code, document) to a diagnostic; the optional document argument only
affects rendering and is dropped. -/
def createDiagnostic (node : SyntaxNode) (code : ErrorCode) : Diagnostic :=
  ⟨node, code⟩

/-- The mutable state of one diagnostics pass: the accumulated diagnostic
list and the two pass-scoped string sets (JS `Set` objects, modelled as
duplicate-free lists in insertion order). -/
structure DiagState where
  diagnostics : List Diagnostic
  functionNames : List String
  variableNames : List String

def pushDiag (st : DiagState) (d : Diagnostic) : DiagState :=
  { st with diagnostics := st.diagnostics ++ [d] }

/-- JS `Set.has`. -/
def setHas (s : List String) (x : String) : Bool :=
  decide (x ∈ s)

/-- JS `Set.add`: inserts only when absent, at the end. -/
def setAdd (s : List String) (x : String) : List String :=
  if setHas s x then s else s ++ [x]

/-- JS `Set.size`. -/
def setSize (s : List String) : Nat :=
  s.length

/-- `hasPre p l` : the character list `p` is a prefix of `l`. -/
def hasPre : List Char → List Char → Bool
  | [], _ => true
  | _ :: _, [] => false
  | p :: ps, c :: cs => p == c && hasPre ps cs

/-- `hasSub p l` : the character list `p` occurs contiguously inside `l`. -/
def hasSub : List Char → List Char → Bool
  | p, [] => hasPre p []
  | p, c :: cs => hasPre p (c :: cs) || hasSub p cs

/-- JavaScript `String.prototype.includes`: case-sensitive substring test. -/
def jsIncludes (s pat : String) : Bool :=
  hasSub pat.data s.data

/-- JavaScript `String.prototype.startsWith`, at character level. -/
def jsStartsWith (s pat : String) : Bool :=
  hasPre pat.data s.data

/-- JavaScript `String.prototype.endsWith`, at character level. -/
def jsEndsWith (s pat : String) : Bool :=
  hasPre pat.data.reverse s.data.reverse

/-! ## Node-type predicates (external module ../utils/node-types) -/

/-- Modelled from the spec: a parser error node. -/
def isError (n : SyntaxNode) : Bool :=
  match n.type with
  | .error_node => true
  | _ => false

/-- Modelled from the spec: the block-terminator keyword token. -/
def isEnd (n : SyntaxNode) : Bool :=
  match n.type with
  | .end_tok => true
  | _ => false

/-- Modelled from the spec: the name word of a command (a bare `end` with no
enclosing open construct is parsed as a command whose name word is `end`,
while the terminator that closes an open construct is an `end_tok` token). -/
def isCommandName (n : SyntaxNode) : Bool :=
  match n.type with
  | .command_name => true
  | _ => false

/-- Modelled from the spec: a function-definition node. -/
def isFunctionDefinition (n : SyntaxNode) : Bool :=
  match n.type with
  | .function_definition => true
  | _ => false

/-- Modelled from the spec: the name node of a function definition
("each function-name-defining node"). -/
def isFunctionDefinitionName (n : SyntaxNode) : Bool :=
  match n.type with
  | .function_definition_name => true
  | _ => false

/-- Modelled from the spec: a return statement. -/
def isReturn (n : SyntaxNode) : Bool :=
  match n.type with
  | .return_statement => true
  | _ => false

/-- Modelled from the spec: a multi-statement construct (statement
boundary): if/switch/for/while/begin.  Per the source comment on
completeStatementCoverage, else-if/else/case clauses are children of these
and are not themselves statements. -/
def isStatement (n : SyntaxNode) : Bool :=
  match n.type with
  | .if_statement | .switch_statement | .for_statement | .while_statement | .begin_statement => true
  | _ => false

/-- Modelled from the spec: a conditional continuation — a command joined to
its predecessor by a conjunction/disjunction connector (`and ...`/`or ...`). -/
def isConditionalCommand (n : SyntaxNode) : Bool :=
  match n.type with
  | .conditional_execution => true
  | _ => false

/-- Modelled from the spec: a variable-definition node (the defined name
inside a `set` command). -/
def isVariableDefinition (n : SyntaxNode) : Bool :=
  match n.type with
  | .variable_definition => true
  | _ => false

/-- Modelled from the spec: the sibling-search helper from the missing
../utils/tree-sitter module.  Returns the first sibling of the node, in
document order (preceding siblings then following siblings), satisfying the
predicate ("a flag is present among siblings").  The node's siblings are
supplied explicitly since the embedding has no parent pointers. -/
def findFirstSibling (prevSibs follSibs : List SyntaxNode)
    (predicate : SyntaxNode → Bool) : Option SyntaxNode :=
  (prevSibs ++ follSibs).find? predicate

/-! ## Block-balance detectors (validate.ts lines 36-65) -/

/-- isMissingEnd: an error node whose last (or last named) child is not the
terminator keyword. -/
def isMissingEnd (node : SyntaxNode) : Option Diagnostic :=
  let last := (node.children.getLast?).getD ((node.namedChildren.getLast?).getD node)
  if isError node && !isEnd last then some (createDiagnostic node ErrorCode.missingEnd)
  else none

/-- isExtraEnd: a command-name node whose text is `end`. -/
def isExtraEnd (node : SyntaxNode) : Option Diagnostic :=
  if isCommandName node && node.text == "end" then some (createDiagnostic node ErrorCode.extraEnd)
  else none

/-- isSyntaxError: fallback for any remaining error node. -/
def isSyntaxError (node : SyntaxNode) (diagnostic : Option Diagnostic) : Option Diagnostic :=
  if !isError node || diagnostic.isSome then diagnostic
  else if isError node then some (createDiagnostic node ErrorCode.syntaxError)
  else none

/-- collectEndError: the end-balance chain, first match wins; pushes the
winning diagnostic and reports whether one was added. -/
def collectEndError (node : SyntaxNode) (st : DiagState) : DiagState × Bool :=
  let endError :=
    match isMissingEnd node with
    | some d => some d
    | none => isExtraEnd node
  match isSyntaxError node endError with
  | some d => (pushDiag st d, true)
  | none => (st, false)

/-! ## Exhaustive-return coverage (validate.ts lines 68-112) -/

mutual

/-- completeStatementCoverage: recursively descends from a statement root,
returning whether every path through it ends in a return; nodes judged
covered are pushed onto `collection` (the caller discards it).  The early
`return false` inside the source's loop is realized through the `Option`
result of `coverageLoop`. -/
def completeStatementCoverage (root : SyntaxNode) (collection : List SyntaxNode) :
    Bool × List SyntaxNode :=
  match coverageLoop root.children (isReturn root) collection with
  | (none, coll) => (false, coll)
  | (some shouldReturn, coll) =>
    if shouldReturn then (true, coll ++ [root]) else (false, coll)
termination_by sizeOf root
decreasing_by exact SyntaxNode.sizeOf_children_lt root

/-- The `for (const child of root.namedChildren)` loop of
completeStatementCoverage; iteration over `namedChildren` is realized by
skipping unnamed children.  A `none` in the first component is the source's
early `return false`. -/
def coverageLoop (children : List SyntaxNode) (shouldReturn : Bool)
    (collection : List SyntaxNode) : Option Bool × List SyntaxNode :=
  match children with
  | [] => (some shouldReturn, collection)
  | child :: rest =>
    if !child.named then coverageLoop rest shouldReturn collection
    else
      match completeStatementCoverage child collection with
      | (b, collection') =>
        let inc := b || isReturn child
        if isStatement child && !inc then (none, collection')
        else coverageLoop rest (inc || shouldReturn) collection'
termination_by sizeOf children

end

/-- The statement loop of collectFunctionsScopes: once an if-statement is
judged exhaustive (`hasRets`), every later statement child is reported
unreachableCode; only if-statements are ever evaluated for exhaustiveness. -/
def scopesLoop (statements : List SyntaxNode) (hasRets : Bool) (st : DiagState) :
    DiagState × Bool :=
  match statements with
  | [] => (st, hasRets)
  | statement :: rest =>
    if hasRets then
      scopesLoop rest hasRets (pushDiag st (createDiagnostic statement ErrorCode.unreachableCode))
    else if statement.type = NodeType.if_statement then
      scopesLoop rest (completeStatementCoverage statement []).1 st
    else
      scopesLoop rest hasRets st

/-- collectFunctionsScopes: on a function definition, walk its statement
children and report those after the first exhaustive if-statement. -/
def collectFunctionsScopes (node : SyntaxNode) (doc : LspDocument) (st : DiagState) :
    DiagState × Bool :=
  if !isFunctionDefinition node then (st, false)
  else scopesLoop (node.namedChildren.filter isStatement) false st

/-! ## Function-name rules (validate.ts lines 116-146) -/

/-- collectFunctionNames: the three naming rules, evaluated sequentially on a
function-definition-name node.  `needsAutoloadName` is computed once, before
any of the three conditional blocks runs; each firing rule adds the name to
the set and appends its diagnostic. -/
def collectFunctionNames (node : SyntaxNode) (doc : LspDocument) (st : DiagState) :
    DiagState × Bool :=
  let name := node.text
  if !isFunctionDefinitionName node then (st, false)
  else
    let needsAutoloadName := doc.isAutoLoaded && name != doc.getAutoLoadName
        && !setHas st.functionNames name && setSize st.functionNames == 0
    let hasDup := setHas st.functionNames name
    let st1 :=
      if hasDup then
        pushDiag { st with functionNames := setAdd st.functionNames name }
          (createDiagnostic node ErrorCode.duplicateFunctionName)
      else st
    let st2 :=
      if needsAutoloadName then
        pushDiag { st1 with functionNames := setAdd st1.functionNames name }
          (createDiagnostic node ErrorCode.missingAutoloadedFunctionName)
      else st1
    let privateHelper := !needsAutoloadName && !jsStartsWith name "_"
    let st3 :=
      if privateHelper then
        pushDiag { st2 with functionNames := setAdd st2.functionNames name }
          (createDiagnostic node ErrorCode.privateHelperFunction)
      else st2
    (st3, hasDup || needsAutoloadName || privateHelper)

/-! ## Variable rules (validate.ts lines 150-190) -/

/-- The flag matcher defined inline in findVariableFlagsIfSeen: a long
option matches by full equality against `--opt`; a short option cluster
matches when the sibling text contains the option character (JS
`String.includes`, case-sensitive). -/
def isUniveralOption (shortOpts longOpts : List String) (n : SyntaxNode) : Bool :=
  if jsStartsWith n.text "--" then longOpts.any (fun opt => n.text == "--" ++ opt)
  else if !jsStartsWith n.text "--" && jsStartsWith n.text "-" then
    shortOpts.any (fun short => jsIncludes n.text short)
  else false

/-- findVariableFlagsIfSeen: on a variable-definition node, the first sibling
that matches one of the given flags. -/
def findVariableFlagsIfSeen (node : SyntaxNode) (prevSibs follSibs : List SyntaxNode)
    (shortOpts longOpts : List String) : Option SyntaxNode :=
  if !isVariableDefinition node then none
  else findFirstSibling prevSibs follSibs (isUniveralOption shortOpts longOpts)

/-- getPathVariable: the one name/flag check with the two mutually exclusive
outcomes pathVariable (PATH-suffixed name without a path flag) and pathFlag
(path flag without a PATH-suffixed name).  The source's
`if (!isVariableDefinition(node)) null;` guard lacks a `return` and has no
effect, so it is not embedded. -/
def getPathVariable (node : SyntaxNode) (prevSibs follSibs : List SyntaxNode)
    (seen : List String) : Option Diagnostic × List String :=
  let pathFlag := findVariableFlagsIfSeen node prevSibs follSibs [] ["path", "unpath"]
  let r1 : Option Diagnostic × List String :=
    if pathFlag.isNone && jsEndsWith node.text "PATH" then
      (some (createDiagnostic node ErrorCode.pathVariable), setAdd seen node.text)
    else (none, seen)
  if pathFlag.isSome && !jsEndsWith node.text "PATH" then
    (some (createDiagnostic node ErrorCode.pathFlag), setAdd r1.2 node.text)
  else r1

/-- getUniversalVariable: a diagnostic anchored on the matching flag sibling
when a universal flag (short `u`, long `universal`) is found. -/
def getUniversalVariable (node : SyntaxNode) (prevSibs follSibs : List SyntaxNode)
    (seen : List String) : Option Diagnostic × List String :=
  if !isVariableDefinition node then (none, seen)
  else
    match findVariableFlagsIfSeen node prevSibs follSibs ["u"] ["universal"] with
    | none => (none, seen)
    | some univeralFlag =>
      (some (createDiagnostic univeralFlag ErrorCode.universalVariable), setAdd seen node.text)

/-- collectVariableNames: getUniversalVariable short-circuits getPathVariable
(JS `||`); the single resulting diagnostic, if any, is pushed. -/
def collectVariableNames (node : SyntaxNode) (prevSibs follSibs : List SyntaxNode)
    (doc : LspDocument) (st : DiagState) : DiagState × Bool :=
  if !isVariableDefinition node then (st, false)
  else
    let r1 := getUniversalVariable node prevSibs follSibs st.variableNames
    let r2 :=
      match r1.1 with
      | some d => (some d, r1.2)
      | none => getPathVariable node prevSibs follSibs r1.2
    let st' := { st with variableNames := r2.2 }
    match r2.1 with
    | none => (st', false)
    | some d => (pushDiag st' d, true)

/-! ## Trailing-chain reachability (validate.ts lines 192-218) -/

/-- The `for (const sibling of siblings)` loop of collectReturnError: while
`stillChaining` holds a conditional continuation is skipped; the first
non-continuation breaks the chain and is reported, and after the break every
remaining sibling is reported regardless of kind. -/
def chainLoop (siblings : List SyntaxNode) (stillChaining : Bool) : List Diagnostic :=
  match siblings with
  | [] => []
  | sibling :: rest =>
    if !stillChaining then
      createDiagnostic sibling ErrorCode.unreachableCode :: chainLoop rest stillChaining
    else if isConditionalCommand sibling then chainLoop rest true
    else createDiagnostic sibling ErrorCode.unreachableCode :: chainLoop rest false

/-- collectReturnError: on a non-return node, walk the sibling list that
starts at the node itself and continues through the following named siblings
(the source's `nextNamedSibling` while-loop), stopping at the first
statement-boundary node, then run the chain scan over it. -/
def collectReturnError (node : SyntaxNode) (followingNamed : List SyntaxNode)
    (st : DiagState) : DiagState × Bool :=
  if isReturn node then (st, false)
  else
    let siblings := (node :: followingNamed).takeWhile (fun n => !isStatement n)
    ({ st with diagnostics := st.diagnostics ++ chainLoop siblings true }, true)

/-! ## The traversal (validate.ts lines 220-231, 27-33) -/

/-- The named siblings among a sibling list (the `nextNamedSibling` chain). -/
def namedSiblings (sibs : List SyntaxNode) : List SyntaxNode :=
  sibs.filter (fun n => n.named)

/-- The per-node detector chain of collectAllDiagnostics: the JS `||` chain
threads the mutated state left to right and stops at the first detector
returning true. -/
def diagnosticStep (root : SyntaxNode) (prevSibs follSibs : List SyntaxNode)
    (doc : LspDocument) (st : DiagState) : DiagState × Bool :=
  let r1 := collectEndError root st
  if r1.2 then r1 else
  let r2 := collectFunctionNames root doc r1.1
  if r2.2 then r2 else
  let r3 := collectVariableNames root prevSibs follSibs doc r2.1
  if r3.2 then r3 else
  let r4 := collectFunctionsScopes root doc r3.1
  if r4.2 then r4 else
  collectReturnError root (namedSiblings follSibs) r4.1

mutual

/-- collectAllDiagnostics: run the detector chain on the node, then recurse
over all children (each child's sibling context is its position in the
parent's child list); the returned flag is the last child's flag, or the
node's own when it has no children (`shouldAdd || false`). -/
def collectAllDiagnostics (root : SyntaxNode) (prevSibs follSibs : List SyntaxNode)
    (doc : LspDocument) (st : DiagState) : DiagState × Bool :=
  let r := diagnosticStep root prevSibs follSibs doc st
  collectChildrenDiagnostics doc [] root.children r.1 r.2
termination_by sizeOf root
decreasing_by exact SyntaxNode.sizeOf_children_lt root

/-- The `for (const node of root.children)` loop of collectAllDiagnostics:
`prev` accumulates the already-visited siblings, `shouldAdd` is overwritten
by each child's result. -/
def collectChildrenDiagnostics (doc : LspDocument) (prev rest0 : List SyntaxNode)
    (st : DiagState) (shouldAdd : Bool) : DiagState × Bool :=
  match rest0 with
  | [] => (st, shouldAdd || false)
  | child :: rest =>
    let r := collectAllDiagnostics child prev rest doc st
    collectChildrenDiagnostics doc (prev ++ [child]) rest r.1 r.2
termination_by sizeOf rest0

end

/-- collectDiagnosticsRecursive: the exported entry point; fresh empty state,
fresh name sets, no sibling context at the root. -/
def collectDiagnosticsRecursive (root : SyntaxNode) (doc : LspDocument) : List Diagnostic :=
  (collectAllDiagnostics root [] [] doc ⟨[], [], []⟩).1.diagnostics

/-! ## Evaluation lemmas for the well-founded recursions -/

theorem coverageLoop_nil (sr : Bool) (coll : List SyntaxNode) :
    coverageLoop [] sr coll = (some sr, coll) := by
  rw [coverageLoop.eq_def]

theorem coverageLoop_unnamed (c : SyntaxNode) (r : List SyntaxNode) (sr : Bool)
    (coll : List SyntaxNode) (h : c.named = false) :
    coverageLoop (c :: r) sr coll = coverageLoop r sr coll := by
  rw [coverageLoop.eq_def]; simp [h]

theorem coverageLoop_named (c : SyntaxNode) (r : List SyntaxNode) (sr : Bool)
    (coll : List SyntaxNode) (h : c.named = true) :
    coverageLoop (c :: r) sr coll =
      (if isStatement c && !((completeStatementCoverage c coll).1 || isReturn c)
        then (none, (completeStatementCoverage c coll).2)
        else coverageLoop r (((completeStatementCoverage c coll).1 || isReturn c) || sr)
          (completeStatementCoverage c coll).2) := by
  rw [coverageLoop.eq_def]
  simp only [h, Bool.not_true, Bool.false_eq_true, if_false]

theorem completeStatementCoverage_eq (root : SyntaxNode) (coll : List SyntaxNode) :
    completeStatementCoverage root coll =
      (match (coverageLoop root.children (isReturn root) coll).1 with
       | none => (false, (coverageLoop root.children (isReturn root) coll).2)
       | some sr =>
         if sr then (true, (coverageLoop root.children (isReturn root) coll).2 ++ [root])
         else (false, (coverageLoop root.children (isReturn root) coll).2)) := by
  rw [completeStatementCoverage.eq_1]
  obtain ⟨o, c⟩ := coverageLoop root.children (isReturn root) coll
  cases o <;> rfl

/-! ## General lemmas about the detectors -/

theorem chainLoop_false (l : List SyntaxNode) :
    chainLoop l false = l.map (fun n => createDiagnostic n ErrorCode.unreachableCode) := by
  induction l with
  | nil => rfl
  | cons c rest ih => simp [chainLoop, ih]

theorem chainLoop_true (l : List SyntaxNode) :
    chainLoop l true =
      (l.dropWhile isConditionalCommand).map (fun n => createDiagnostic n ErrorCode.unreachableCode) := by
  induction l with
  | nil => rfl
  | cons c rest ih =>
    by_cases h : isConditionalCommand c
    · simp [chainLoop, h, List.dropWhile, ih]
    · simp [chainLoop, h, List.dropWhile, chainLoop_false]

theorem collectEndError_false (node : SyntaxNode) (st : DiagState) :
    (collectEndError node st).2 = false → (collectEndError node st).1 = st := by
  intro h
  unfold collectEndError at h ⊢
  split at h
  all_goals dsimp only at h ⊢
  all_goals (split at h <;> simp_all)

theorem collectFunctionNames_false (node : SyntaxNode) (doc : LspDocument) (st : DiagState) :
    (collectFunctionNames node doc st).2 = false → (collectFunctionNames node doc st).1 = st := by
  unfold collectFunctionNames
  cases hf : isFunctionDefinitionName node
  · simp
  · cases hd : setHas st.functionNames node.text <;>
    cases hna : (doc.isAutoLoaded && node.text != doc.getAutoLoadName
        && !setHas st.functionNames node.text && setSize st.functionNames == 0) <;>
    cases hsw : jsStartsWith node.text "_" <;>
    simp_all [pushDiag]

theorem collectReturnError_false (node : SyntaxNode) (foll : List SyntaxNode) (st : DiagState) :
    (collectReturnError node foll st).2 = false → (collectReturnError node foll st).1 = st := by
  unfold collectReturnError
  cases hr : isReturn node <;> simp

theorem getUniversalVariable_none (node : SyntaxNode) (p f : List SyntaxNode) (seen : List String) :
    (getUniversalVariable node p f seen).1 = none → (getUniversalVariable node p f seen).2 = seen := by
  intro h
  unfold getUniversalVariable at h ⊢
  split at h
  · simp_all
  · split at h <;> simp_all

theorem getPathVariable_none (node : SyntaxNode) (p f : List SyntaxNode) (seen : List String) :
    (getPathVariable node p f seen).1 = none → (getPathVariable node p f seen).2 = seen := by
  intro h
  unfold getPathVariable at h ⊢
  dsimp only at h ⊢
  rcases hf : findVariableFlagsIfSeen node p f [] ["path", "unpath"] with _ | flag <;>
    cases he : jsEndsWith node.text "PATH" <;>
    simp_all

theorem collectVariableNames_eq (node : SyntaxNode) (p f : List SyntaxNode)
    (doc : LspDocument) (st : DiagState) :
    collectVariableNames node p f doc st =
      (if !isVariableDefinition node then (st, false)
       else
         match (getUniversalVariable node p f st.variableNames).1 with
         | some d =>
           (pushDiag { st with variableNames := (getUniversalVariable node p f st.variableNames).2 } d,
             true)
         | none =>
           match (getPathVariable node p f (getUniversalVariable node p f st.variableNames).2).1 with
           | some d =>
             (pushDiag
               { st with
                 variableNames :=
                   (getPathVariable node p f (getUniversalVariable node p f st.variableNames).2).2 } d,
               true)
           | none =>
             ({ st with
                variableNames :=
                  (getPathVariable node p f (getUniversalVariable node p f st.variableNames).2).2 },
               false)) := by
  unfold collectVariableNames
  by_cases hv : isVariableDefinition node
  · simp only [hv, Bool.not_true, Bool.false_eq_true, if_false]
    rcases hu : getUniversalVariable node p f st.variableNames with ⟨d1, seen1⟩
    cases d1
    · dsimp only
      rcases hp : getPathVariable node p f seen1 with ⟨d2, seen2⟩
      cases d2 <;> rfl
    · rfl
  · simp [hv]

theorem collectVariableNames_false (node : SyntaxNode) (p f : List SyntaxNode)
    (doc : LspDocument) (st : DiagState) :
    (collectVariableNames node p f doc st).2 = false → (collectVariableNames node p f doc st).1 = st := by
  intro h
  rw [collectVariableNames_eq] at h ⊢
  split at h
  · simp_all
  · split at h
    · simp_all
    · split at h
      · simp_all
      · have h1 := getUniversalVariable_none node p f st.variableNames (by assumption)
        have h2 := getPathVariable_none node p f
          (getUniversalVariable node p f st.variableNames).2 (by assumption)
        simp_all

theorem scopesLoop_true (l : List SyntaxNode) (st : DiagState) :
    (scopesLoop l true st).2 = true := by
  induction l generalizing st with
  | nil => rfl
  | cons c rest ih => simp [scopesLoop, ih]

theorem scopesLoop_false (l : List SyntaxNode) (st : DiagState) :
    (scopesLoop l false st).2 = false → (scopesLoop l false st).1 = st := by
  induction l generalizing st with
  | nil => intro h; rfl
  | cons c rest ih =>
    intro h
    rw [scopesLoop] at h ⊢
    simp only [Bool.false_eq_true, if_false] at h ⊢
    by_cases hc : c.type = NodeType.if_statement
    · rw [if_pos hc] at h ⊢
      by_cases hcov : (completeStatementCoverage c []).1
      · rw [hcov] at h ⊢; rw [scopesLoop_true] at h; simp at h
      · rw [Bool.not_eq_true] at hcov; rw [hcov] at h ⊢; exact ih st h
    · rw [if_neg hc] at h ⊢; exact ih st h

theorem collectFunctionsScopes_false (node : SyntaxNode) (doc : LspDocument) (st : DiagState) :
    (collectFunctionsScopes node doc st).2 = false → (collectFunctionsScopes node doc st).1 = st := by
  intro h
  unfold collectFunctionsScopes at h ⊢
  by_cases hv : isFunctionDefinition node
  · simp only [hv, Bool.not_true, Bool.false_eq_true, if_false] at h ⊢
    exact scopesLoop_false _ _ h
  · simp_all

theorem diagnosticStep_first_wins (root : SyntaxNode) (prevSibs follSibs : List SyntaxNode)
    (doc : LspDocument) (st : DiagState) :
    diagnosticStep root prevSibs follSibs doc st =
      (if (collectEndError root st).2 then collectEndError root st
       else if (collectFunctionNames root doc st).2 then collectFunctionNames root doc st
       else if (collectVariableNames root prevSibs follSibs doc st).2 then
         collectVariableNames root prevSibs follSibs doc st
       else if (collectFunctionsScopes root doc st).2 then collectFunctionsScopes root doc st
       else collectReturnError root (namedSiblings follSibs) st) := by
  unfold diagnosticStep
  dsimp only
  by_cases h1 : (collectEndError root st).2
  · simp [h1]
  · rw [Bool.not_eq_true] at h1
    have e1 := collectEndError_false root st h1
    rw [h1, e1]
    simp only [Bool.false_eq_true, if_false]
    by_cases h2 : (collectFunctionNames root doc st).2
    · simp [h2]
    · rw [Bool.not_eq_true] at h2
      have e2 := collectFunctionNames_false root doc st h2
      rw [h2, e2]
      simp only [Bool.false_eq_true, if_false]
      by_cases h3 : (collectVariableNames root prevSibs follSibs doc st).2
      · simp [h3]
      · rw [Bool.not_eq_true] at h3
        have e3 := collectVariableNames_false root prevSibs follSibs doc st h3
        rw [h3, e3]
        simp only [Bool.false_eq_true, if_false]
        by_cases h4 : (collectFunctionsScopes root doc st).2
        · simp [h4]
        · rw [Bool.not_eq_true] at h4
          have e4 := collectFunctionsScopes_false root doc st h4
          rw [h4, e4]

/-! ## Observers for newly appended diagnostics -/

/-- The diagnostics a detector call appended beyond those already in `st`. -/
def appendedDiagnostics (st : DiagState) (r : DiagState × Bool) : List Diagnostic :=
  r.1.diagnostics.drop st.diagnostics.length

/-- The codes of the newly appended diagnostics. -/
def appendedCodes (st : DiagState) (r : DiagState × Bool) : List ErrorCode :=
  (appendedDiagnostics st r).map (fun d => d.code)

/-- Boolean membership for codes. -/
def codeMem (c : ErrorCode) (l : List ErrorCode) : Bool :=
  decide (c ∈ l)

theorem appendedDiagnostics_of_eq (st : DiagState) (r : DiagState × Bool) (l : List Diagnostic)
    (h : r.1.diagnostics = st.diagnostics ++ l) : appendedDiagnostics st r = l := by
  simp [appendedDiagnostics, h]

theorem setHas_setAdd (s : List String) (x : String) : setHas (setAdd s x) x = true := by
  by_cases h : x ∈ s <;> simp [setAdd, setHas, h]

/-- Master characterization of collectFunctionNames: the appended diagnostics
are the firing rules' diagnostics, in rule order. -/
theorem collectFunctionNames_diagnostics (node : SyntaxNode) (doc : LspDocument) (st : DiagState) :
    (collectFunctionNames node doc st).1.diagnostics =
      st.diagnostics ++
        ((if isFunctionDefinitionName node && setHas st.functionNames node.text
            then [createDiagnostic node ErrorCode.duplicateFunctionName] else []) ++
         (if isFunctionDefinitionName node && (doc.isAutoLoaded && node.text != doc.getAutoLoadName
              && !setHas st.functionNames node.text && setSize st.functionNames == 0)
            then [createDiagnostic node ErrorCode.missingAutoloadedFunctionName] else []) ++
         (if isFunctionDefinitionName node
              && !(doc.isAutoLoaded && node.text != doc.getAutoLoadName
                    && !setHas st.functionNames node.text && setSize st.functionNames == 0)
              && !jsStartsWith node.text "_"
            then [createDiagnostic node ErrorCode.privateHelperFunction] else [])) := by
  unfold collectFunctionNames
  cases hf : isFunctionDefinitionName node
  · simp
  · cases hd : setHas st.functionNames node.text <;>
    cases hna : (doc.isAutoLoaded && node.text != doc.getAutoLoadName
        && !setHas st.functionNames node.text && setSize st.functionNames == 0) <;>
    cases hsw : jsStartsWith node.text "_" <;>
    (simp only [hna]; simp_all [pushDiag]) <;>
    (by_cases hA : doc.isAutoLoaded = true <;> by_cases hB : node.text = doc.getAutoLoadName <;>
      by_cases hC : setSize st.functionNames = 0 <;> simp_all)

theorem setAdd_of_mem (s : List String) (x : String) (h : setHas s x = true) :
    setAdd s x = s := by
  simp [setAdd, h]

/-- The name set after collectFunctionNames contains the node's text exactly
when it already did, or some naming rule fired. -/
theorem collectFunctionNames_setHas (node : SyntaxNode) (doc : LspDocument) (st : DiagState) :
    setHas (collectFunctionNames node doc st).1.functionNames node.text
      = (setHas st.functionNames node.text || (collectFunctionNames node doc st).2) := by
  unfold collectFunctionNames
  cases hf : isFunctionDefinitionName node
  · simp
  · cases hd : setHas st.functionNames node.text <;>
    cases hna : (doc.isAutoLoaded && node.text != doc.getAutoLoadName
        && !setHas st.functionNames node.text && setSize st.functionNames == 0) <;>
    cases hsw : jsStartsWith node.text "_" <;>
    (simp only [hna]; simp_all [pushDiag, setHas_setAdd, setAdd_of_mem])

/-- missingAutoloadedFunctionName is appended exactly when the node is a
function-definition name in an autoloaded document whose text differs from
the autoload name while the name set is still empty. -/
theorem missingAutoload_appended (node : SyntaxNode) (doc : LspDocument) (st : DiagState) :
    codeMem ErrorCode.missingAutoloadedFunctionName
        (appendedCodes st (collectFunctionNames node doc st))
      = (isFunctionDefinitionName node && doc.isAutoLoaded
          && (node.text != doc.getAutoLoadName) && st.functionNames.isEmpty) := by
  have hA := appendedDiagnostics_of_eq st (collectFunctionNames node doc st) _
    (collectFunctionNames_diagnostics node doc st)
  unfold appendedCodes
  rw [hA]
  cases hl : st.functionNames with
  | nil =>
    cases hf : isFunctionDefinitionName node <;>
    by_cases hA : doc.isAutoLoaded = true <;>
    by_cases hB : node.text = doc.getAutoLoadName <;>
    cases hsw : jsStartsWith node.text "_" <;>
    simp_all [codeMem, setHas, setSize, createDiagnostic]
  | cons a l =>
    cases hf : isFunctionDefinitionName node <;>
    cases hd : setHas st.functionNames node.text <;>
    cases hsw : jsStartsWith node.text "_" <;>
    simp_all [codeMem, setHas, setSize, createDiagnostic]

/-- missingAutoloadedFunctionName never co-occurs with duplicateFunctionName
or privateHelperFunction in the same collectFunctionNames call. -/
theorem missingAutoload_excludes (node : SyntaxNode) (doc : LspDocument) (st : DiagState) :
    (codeMem ErrorCode.missingAutoloadedFunctionName
        (appendedCodes st (collectFunctionNames node doc st))
      && (codeMem ErrorCode.duplicateFunctionName
            (appendedCodes st (collectFunctionNames node doc st))
          || codeMem ErrorCode.privateHelperFunction
            (appendedCodes st (collectFunctionNames node doc st)))) = false := by
  have hA := appendedDiagnostics_of_eq st (collectFunctionNames node doc st) _
    (collectFunctionNames_diagnostics node doc st)
  unfold appendedCodes
  rw [hA]
  cases hf : isFunctionDefinitionName node <;>
  cases hd : setHas st.functionNames node.text <;>
  cases hna : (doc.isAutoLoaded && node.text != doc.getAutoLoadName
      && !setHas st.functionNames node.text && setSize st.functionNames == 0) <;>
  cases hsw : jsStartsWith node.text "_" <;>
  simp_all [codeMem, createDiagnostic]

theorem getUniversalVariable_code (node : SyntaxNode) (p f : List SyntaxNode)
    (seen : List String) (d : Diagnostic) :
    (getUniversalVariable node p f seen).1 = some d → d.code = ErrorCode.universalVariable := by
  intro h
  unfold getUniversalVariable at h
  split at h
  · simp_all
  · split at h <;> simp_all [createDiagnostic]
    exact h.symm ▸ rfl

theorem getPathVariable_code (node : SyntaxNode) (p f : List SyntaxNode)
    (seen : List String) (d : Diagnostic) :
    (getPathVariable node p f seen).1 = some d →
      d.code = ErrorCode.pathVariable ∨ d.code = ErrorCode.pathFlag := by
  intro h
  unfold getPathVariable at h
  dsimp only at h
  split at h
  · simp_all [createDiagnostic]
    right; exact h.symm ▸ rfl
  · split at h
    · simp_all [createDiagnostic]
      left; exact h.symm ▸ rfl
    · simp_all

/-- The diagnostics appended by collectVariableNames: empty, or the single
diagnostic of the winning check. -/
theorem collectVariableNames_appended (node : SyntaxNode) (p f : List SyntaxNode)
    (doc : LspDocument) (st : DiagState) :
    appendedDiagnostics st (collectVariableNames node p f doc st) =
      (if !isVariableDefinition node then []
       else
         match (getUniversalVariable node p f st.variableNames).1 with
         | some d => [d]
         | none =>
           match (getPathVariable node p f (getUniversalVariable node p f st.variableNames).2).1 with
           | some d => [d]
           | none => []) := by
  rw [collectVariableNames_eq]
  by_cases hv : isVariableDefinition node
  · simp only [hv, Bool.not_true, Bool.false_eq_true, if_false]
    rcases hu : (getUniversalVariable node p f st.variableNames).1 with _ | d
    · rcases hp : (getPathVariable node p f (getUniversalVariable node p f st.variableNames).2).1
        with _ | d
      · simp [appendedDiagnostics, List.drop_length]
      · exact appendedDiagnostics_of_eq _ _ _ (by simp [pushDiag])
    · exact appendedDiagnostics_of_eq _ _ _ (by simp [pushDiag])
  · simp [hv, appendedDiagnostics, List.drop_length]

/-- universalVariable never co-occurs with a path diagnostic for the same
variable-definition node. -/
theorem universal_excludes_path (node : SyntaxNode) (p f : List SyntaxNode)
    (doc : LspDocument) (st : DiagState) :
    (codeMem ErrorCode.universalVariable
        (appendedCodes st (collectVariableNames node p f doc st))
      && (codeMem ErrorCode.pathVariable
            (appendedCodes st (collectVariableNames node p f doc st))
          || codeMem ErrorCode.pathFlag
            (appendedCodes st (collectVariableNames node p f doc st)))) = false := by
  unfold appendedCodes
  rw [collectVariableNames_appended]
  by_cases hv : isVariableDefinition node
  · simp only [hv, Bool.not_true, Bool.false_eq_true, if_false]
    rcases hu : (getUniversalVariable node p f st.variableNames).1 with _ | d
    · rcases hp : (getPathVariable node p f (getUniversalVariable node p f st.variableNames).2).1
        with _ | d
      · simp [codeMem]
      · have := getPathVariable_code node p f (getUniversalVariable node p f st.variableNames).2 d hp
        rcases this with h | h <;> simp [codeMem, h]
    · have := getUniversalVariable_code node p f st.variableNames d hu
      simp [codeMem, this]
  · simp [hv, codeMem]

/-- The diagnostics appended by collectReturnError: nothing for a return
node; otherwise the chain scan output over the sibling list that begins at
the node itself. -/
theorem collectReturnError_appended (node : SyntaxNode) (foll : List SyntaxNode) (st : DiagState) :
    appendedDiagnostics st (collectReturnError node foll st) =
      (if isReturn node then []
       else (((node :: foll).takeWhile (fun n => !isStatement n)).dropWhile
           isConditionalCommand).map
         (fun n => createDiagnostic n ErrorCode.unreachableCode)) := by
  unfold collectReturnError
  by_cases hr : isReturn node
  · simp [hr, appendedDiagnostics, List.drop_length]
  · simp only [hr, Bool.false_eq_true, if_false]
    rw [← chainLoop_true]
    exact appendedDiagnostics_of_eq _ _ _ (by simp)

/-! ## Concrete fixtures for the claims -/

def emptyState : DiagState := ⟨[], [], []⟩

def plainDoc : LspDocument := ⟨false, ""⟩

/-- An autoloaded document whose expected autoload name is `_foo`. -/
def autoDoc : LspDocument := ⟨true, "_foo"⟩

def setWord : SyntaxNode := .mk .command_name "set" true []

def dashUFlag : SyntaxNode := .mk .word "-U" true []

def dashuFlag : SyntaxNode := .mk .word "-u" true []

def universalFlag : SyntaxNode := .mk .word "--universal" true []

def oneWord : SyntaxNode := .mk .word "1" true []

def varMYVAR : SyntaxNode := .mk .variable_definition "MYVAR" true []

def varMYPATH : SyntaxNode := .mk .variable_definition "MYPATH" true []

def echoCmd : SyntaxNode := .mk .command "echo hi" true []

def echoCmd2 : SyntaxNode := .mk .command "echo bye" true []

def andReturnCmd : SyntaxNode := .mk .conditional_execution "and return 0" true []

def condTrue : SyntaxNode := .mk .command "true" true []

def retStmt : SyntaxNode := .mk .return_statement "return 0" true []

/-- `if true; return 0; end` — an if-statement with no else clause whose
then-branch returns. -/
def ifWithoutElse : SyntaxNode :=
  .mk .if_statement "if true; return 0; end" true
    [.mk .word "if" false [], condTrue, retStmt, .mk .end_tok "end" false []]

/-- `if true; echo hi; end` — a statement following the else-less if. -/
def ifAfter : SyntaxNode :=
  .mk .if_statement "if true; echo hi; end" true
    [.mk .word "if" false [], .mk .command "true" true [], .mk .command "echo hi" true [],
     .mk .end_tok "end" false []]

def fnNameNode : SyntaxNode := .mk .function_definition_name "_f" true []

/-- A function definition whose body is the else-less returning if followed
by another statement. -/
def fnWithTrailing : SyntaxNode :=
  .mk .function_definition "function _f; if true; return 0; end; if true; echo hi; end; end" true
    [fnNameNode, ifWithoutElse, ifAfter]

/-- A function definition whose body is only the else-less returning if. -/
def fnCovered : SyntaxNode :=
  .mk .function_definition "function _g; if true; return 0; end; end" true
    [.mk .function_definition_name "_g" true [], ifWithoutElse]

def endToken : SyntaxNode := .mk .end_tok "end" false []

def fooName : SyntaxNode := .mk .function_definition_name "foo" true []

def underscoreFooName : SyntaxNode := .mk .function_definition_name "_foo" true []

def barName : SyntaxNode := .mk .function_definition_name "bar" true []

def stateWithFoo : DiagState := ⟨[], ["foo"], []⟩

/-! ## Claim theorems -/

/-- C2 counterexample: for the non-return command node `echo hi` followed by
the conditional continuation `and return 0`, the trailing-chain rule reports
the conditional continuation (and the node itself), although the claim says
a conditional continuation encountered while chaining still holds is left
undiagnosed and that the reported set starts at the first following sibling
that is not a conditional continuation (here there is none). -/
theorem C2_counterexample :
    isConditionalCommand andReturnCmd = true
      ∧ appendedDiagnostics emptyState (collectReturnError echoCmd [andReturnCmd] emptyState)
          = [createDiagnostic echoCmd ErrorCode.unreachableCode,
             createDiagnostic andReturnCmd ErrorCode.unreachableCode] :=
  ⟨rfl, rfl⟩

/-- C2 amended: the scanned sibling list begins with the node itself, so for
a non-return command node the chain breaks at the node at once and the
reported set is the whole sibling list up to (excluding) the first
statement-boundary sibling — the node and every following named sibling,
conditional continuations included. -/
theorem C2_amended (node : SyntaxNode) (foll : List SyntaxNode) (st : DiagState)
    (h : node.type = NodeType.command) :
    appendedDiagnostics st (collectReturnError node foll st)
      = ((node :: foll).takeWhile (fun n => !isStatement n)).map
          (fun n => createDiagnostic n ErrorCode.unreachableCode) := by
  rw [collectReturnError_appended]
  have hr : isReturn node = false := by simp [isReturn, h]
  have hs : isStatement node = false := by simp [isStatement, h]
  have hc : isConditionalCommand node = false := by simp [isConditionalCommand, h]
  simp [hr, hs, hc, List.takeWhile_cons, List.dropWhile_cons]

/-- C2 amended witness at `echo hi ; and return 0`. -/
theorem C2_amended_witness :
    echoCmd.type = NodeType.command
      ∧ appendedDiagnostics emptyState (collectReturnError echoCmd [andReturnCmd] emptyState)
          = ((echoCmd :: [andReturnCmd]).takeWhile (fun n => !isStatement n)).map
              (fun n => createDiagnostic n ErrorCode.unreachableCode) :=
  ⟨rfl, C2_amended echoCmd [andReturnCmd] emptyState rfl⟩

/-- C3 counterexample: the evaluation of the single node `echo hi` (with a
following sibling command) appends two diagnostics through the precedence
chain, not at most one. -/
theorem C3_counterexample :
    appendedCodes emptyState (diagnosticStep echoCmd [] [echoCmd2] plainDoc emptyState)
      = [ErrorCode.unreachableCode, ErrorCode.unreachableCode] :=
  rfl

/-- C3 amended: the precedence chain is first-success-wins — the detectors
are tried in fixed order, a detector that signals false leaves the state
untouched, and the chain's result is the first succeeding detector applied
to the original state; that single detector may append more than one
diagnostic. -/
theorem C3_amended (root : SyntaxNode) (prevSibs follSibs : List SyntaxNode)
    (doc : LspDocument) (st : DiagState) :
    diagnosticStep root prevSibs follSibs doc st =
      (if (collectEndError root st).2 then collectEndError root st
       else if (collectFunctionNames root doc st).2 then collectFunctionNames root doc st
       else if (collectVariableNames root prevSibs follSibs doc st).2 then
         collectVariableNames root prevSibs follSibs doc st
       else if (collectFunctionsScopes root doc st).2 then collectFunctionsScopes root doc st
       else collectReturnError root (namedSiblings follSibs) st) :=
  diagnosticStep_first_wins root prevSibs follSibs doc st

/-- C5 counterexample: the negation of the claimed pairwise co-occurrence —
there is NO input on which missingAutoloadedFunctionName co-occurs with
duplicateFunctionName or with privateHelperFunction in one evaluation of a
function-definition name. -/
theorem C5_counterexample :
    (∃ (node : SyntaxNode) (doc : LspDocument) (st : DiagState),
        ErrorCode.missingAutoloadedFunctionName
            ∈ appendedCodes st (collectFunctionNames node doc st)
          ∧ (ErrorCode.duplicateFunctionName
                ∈ appendedCodes st (collectFunctionNames node doc st)
              ∨ ErrorCode.privateHelperFunction
                ∈ appendedCodes st (collectFunctionNames node doc st))) = False := by
  apply eq_false
  rintro ⟨node, doc, st, hm, hrest⟩
  have hx := missingAutoload_excludes node doc st
  have ha : codeMem ErrorCode.missingAutoloadedFunctionName
      (appendedCodes st (collectFunctionNames node doc st)) = true := by
    simp [codeMem, hm]
  have hb : (codeMem ErrorCode.duplicateFunctionName
        (appendedCodes st (collectFunctionNames node doc st))
      || codeMem ErrorCode.privateHelperFunction
        (appendedCodes st (collectFunctionNames node doc st))) = true := by
    rcases hrest with h | h <;> simp [codeMem, h]
  rw [ha, hb] at hx
  simp at hx

/-- C5 amended: duplicateFunctionName and privateHelperFunction do co-occur
for a single name (a second `foo` in a non-autoloaded document), each
appended as its own diagnostic; missingAutoloadedFunctionName is mutually
exclusive with both other rules. -/
theorem C5_amended :
    appendedCodes stateWithFoo (collectFunctionNames fooName plainDoc stateWithFoo)
      = [ErrorCode.duplicateFunctionName, ErrorCode.privateHelperFunction] :=
  rfl

/-- C6 counterexample: the underscore-prefixed name `_foo` in a
non-autoloaded document triggers no naming rule and is NOT inserted into
functionNames, contradicting insertion regardless of outcome. -/
theorem C6_counterexample :
    isFunctionDefinitionName underscoreFooName = true
      ∧ collectFunctionNames underscoreFooName plainDoc emptyState = (emptyState, false)
      ∧ setHas (collectFunctionNames underscoreFooName plainDoc emptyState).1.functionNames
          underscoreFooName.text = false :=
  ⟨rfl, rfl, rfl⟩

/-- C6 amended: after collectFunctionNames, the set contains the node's text
iff it already did or some naming rule fired — a name that triggers no rule
is not inserted. -/
theorem C6_amended (node : SyntaxNode) (doc : LspDocument) (st : DiagState) :
    setHas (collectFunctionNames node doc st).1.functionNames node.text
      = (setHas st.functionNames node.text || (collectFunctionNames node doc st).2) :=
  collectFunctionNames_setHas node doc st

/-- C7 counterexample: the negation of the claimed co-occurrence — there is
NO variable definition (with any sibling flags and any state) for which one
evaluation emits both the universalVariable diagnostic and a path
diagnostic: the universal check short-circuits the path check. -/
theorem C7_counterexample :
    (∃ (node : SyntaxNode) (p f : List SyntaxNode) (doc : LspDocument) (st : DiagState),
        ErrorCode.universalVariable
            ∈ appendedCodes st (collectVariableNames node p f doc st)
          ∧ (ErrorCode.pathVariable
                ∈ appendedCodes st (collectVariableNames node p f doc st)
              ∨ ErrorCode.pathFlag
                ∈ appendedCodes st (collectVariableNames node p f doc st))) = False := by
  apply eq_false
  rintro ⟨node, p, f, doc, st, hm, hrest⟩
  have hx := universal_excludes_path node p f doc st
  have ha : codeMem ErrorCode.universalVariable
      (appendedCodes st (collectVariableNames node p f doc st)) = true := by
    simp [codeMem, hm]
  have hb : (codeMem ErrorCode.pathVariable
        (appendedCodes st (collectVariableNames node p f doc st))
      || codeMem ErrorCode.pathFlag
        (appendedCodes st (collectVariableNames node p f doc st))) = true := by
    rcases hrest with h | h <;> simp [codeMem, h]
  rw [ha, hb] at hx
  simp at hx

/-- C7 amended: universalVariable takes precedence and suppresses the path
check: `set --universal MYPATH 1` yields only the universalVariable
diagnostic (anchored on the flag) although the PATH-suffix check alone
would fire, as `set MYPATH 1` shows. -/
theorem C7_amended :
    appendedDiagnostics emptyState
        (collectVariableNames varMYPATH [setWord, universalFlag] [oneWord] plainDoc emptyState)
      = [createDiagnostic universalFlag ErrorCode.universalVariable]
    ∧ appendedDiagnostics emptyState
        (collectVariableNames varMYPATH [setWord] [oneWord] plainDoc emptyState)
      = [createDiagnostic varMYPATH ErrorCode.pathVariable] :=
  ⟨rfl, rfl⟩

/-- C8: the code misses the capital `-U` flag of `set -U MYVAR 1` — the
short-option matcher searches case-sensitively for the character `u`, so no
universalVariable diagnostic is produced; a lowercase `-u` (fish's
unexport flag) is matched instead, showing the case slip. -/
theorem C8_dashU_missed :
    collectVariableNames varMYVAR [setWord, dashUFlag] [oneWord] plainDoc emptyState
        = (emptyState, false)
      ∧ appendedDiagnostics emptyState
          (collectVariableNames varMYVAR [setWord, dashuFlag] [oneWord] plainDoc emptyState)
        = [createDiagnostic dashuFlag ErrorCode.universalVariable] :=
  ⟨rfl, rfl⟩

/-- C1: contrary to the claim (and to the source's own comment, which says
the coverage check requires a return on every path), an if-statement with no
else clause IS judged exhaustive as soon as its then-branch returns, and the
following sibling statement is reported unreachableCode on its account. -/
theorem C1_else_less_if_judged_exhaustive :
    ifWithoutElse.namedChildren.all (fun c => !decide (c.type = NodeType.else_clause)) = true
      ∧ (completeStatementCoverage ifWithoutElse []).1 = true
      ∧ appendedDiagnostics emptyState (collectFunctionsScopes fnWithTrailing plainDoc emptyState)
          = [createDiagnostic ifAfter ErrorCode.unreachableCode] := by
  refine ⟨rfl, ?_, ?_⟩
  · simp [completeStatementCoverage_eq, coverageLoop_nil, coverageLoop_unnamed, coverageLoop_named,
      ifWithoutElse, condTrue, retStmt, isReturn, isStatement]
  · have h : (collectFunctionsScopes fnWithTrailing plainDoc emptyState).1.diagnostics
        = emptyState.diagnostics ++ [createDiagnostic ifAfter ErrorCode.unreachableCode] := by
      simp [collectFunctionsScopes, scopesLoop, completeStatementCoverage_eq, coverageLoop_nil,
        coverageLoop_unnamed, coverageLoop_named, fnWithTrailing, fnNameNode, ifWithoutElse,
        ifAfter, condTrue, retStmt, isReturn, isStatement, isFunctionDefinition,
        SyntaxNode.namedChildren, pushDiag, emptyState]
    exact appendedDiagnostics_of_eq _ _ _ h

/-- C4 counterexample: in an autoloaded document expecting `_foo`, the first
function name `_foo` matches the autoload name and triggers no rule (so
nothing is added to the set), and the SECOND name `bar` then receives
missingAutoloadedFunctionName — the diagnostic is not restricted to the
first function name encountered. -/
theorem C4_counterexample :
    isFunctionDefinitionName underscoreFooName = true
      ∧ isFunctionDefinitionName barName = true
      ∧ (underscoreFooName.text == barName.text) = false
      ∧ (collectFunctionNames underscoreFooName autoDoc emptyState).2 = false
      ∧ appendedCodes (collectFunctionNames underscoreFooName autoDoc emptyState).1
          (collectFunctionNames barName autoDoc
            (collectFunctionNames underscoreFooName autoDoc emptyState).1)
        = [ErrorCode.missingAutoloadedFunctionName] :=
  ⟨rfl, rfl, rfl, rfl, rfl⟩

/-- C4 amended: missingAutoloadedFunctionName is appended exactly for a
function-definition name in an autoloaded document that differs from the
expected autoload name while the functionNames set is still empty; because
a name that triggers no rule is never inserted, this need not be the first
name encountered. -/
theorem C4_amended (node : SyntaxNode) (doc : LspDocument) (st : DiagState) :
    codeMem ErrorCode.missingAutoloadedFunctionName
        (appendedCodes st (collectFunctionNames node doc st))
      = (isFunctionDefinitionName node && doc.isAutoLoaded
          && (node.text != doc.getAutoLoadName) && st.functionNames.isEmpty) :=
  missingAutoload_appended node doc st

/-- C9: a terminator-keyword token node — in particular the `end` that
closes an open construct — never produces extraEnd: the end-balance chain
leaves the state unchanged and signals false on it, because such a token is
not a command-name node (only a bare `end` parsed as a command is). -/
theorem C9_end_token_no_extraEnd (node : SyntaxNode) (st : DiagState) (h : isEnd node = true) :
    collectEndError node st = (st, false) := by
  have ht : node.type = NodeType.end_tok := by
    revert h; unfold isEnd; cases node.type <;> simp
  have he : isError node = false := by simp [isError, ht]
  have hc : isCommandName node = false := by simp [isCommandName, ht]
  simp [collectEndError, isMissingEnd, isExtraEnd, isSyntaxError, he, hc]

/-- C9 witness: the `end` token closing `if true; return 0; end`. -/
theorem C9_witness :
    isEnd endToken = true ∧ collectEndError endToken emptyState = (emptyState, false) :=
  ⟨rfl, C9_end_token_no_extraEnd endToken emptyState rfl⟩

/-- C10 counterexample: the function definition `function _g; if true;
return 0; end; end` is not a return, not a statement boundary and not a
conditional continuation, and every earlier detector of the chain appends
nothing on it — yet its evaluation appends no unreachableCode anchored on
it, because the exhaustive-return detector signals success (blocking the
trailing-chain rule) while appending nothing. -/
theorem C10_counterexample :
    isReturn fnCovered = false
      ∧ isStatement fnCovered = false
      ∧ isConditionalCommand fnCovered = false
      ∧ appendedDiagnostics emptyState (collectEndError fnCovered emptyState) = []
      ∧ appendedDiagnostics emptyState (collectFunctionNames fnCovered plainDoc emptyState) = []
      ∧ appendedDiagnostics emptyState
          (collectVariableNames fnCovered [] [] plainDoc emptyState) = []
      ∧ appendedDiagnostics emptyState (collectFunctionsScopes fnCovered plainDoc emptyState) = []
      ∧ appendedDiagnostics emptyState (diagnosticStep fnCovered [] [] plainDoc emptyState) = [] := by
  refine ⟨rfl, rfl, rfl, rfl, rfl, rfl, ?_, ?_⟩
  · have h : (collectFunctionsScopes fnCovered plainDoc emptyState).1.diagnostics
        = emptyState.diagnostics ++ [] := by
      simp [collectFunctionsScopes, scopesLoop, completeStatementCoverage_eq, coverageLoop_nil,
        coverageLoop_unnamed, coverageLoop_named, fnCovered, ifWithoutElse, condTrue, retStmt,
        isReturn, isStatement, isFunctionDefinition, SyntaxNode.namedChildren, emptyState]
    exact appendedDiagnostics_of_eq _ _ _ h
  · have h : (diagnosticStep fnCovered [] [] plainDoc emptyState).1.diagnostics
        = emptyState.diagnostics ++ [] := by
      simp [diagnosticStep, collectEndError, collectFunctionNames, collectVariableNames,
        collectFunctionsScopes, scopesLoop, completeStatementCoverage_eq, coverageLoop_nil,
        coverageLoop_unnamed, coverageLoop_named, collectReturnError, isMissingEnd, isExtraEnd,
        isSyntaxError, fnCovered, ifWithoutElse, condTrue, retStmt, isReturn, isStatement,
        isFunctionDefinition, isFunctionDefinitionName, isVariableDefinition, isError,
        isCommandName, isEnd, SyntaxNode.namedChildren, namedSiblings, pushDiag, emptyState]
    exact appendedDiagnostics_of_eq _ _ _ h

/-- C10 amended: when the node is not a return, not a statement boundary and
not a conditional continuation, and every earlier detector of the chain
SIGNALS FALSE (appending nothing and not blocking), the node's evaluation
appends an unreachableCode diagnostic anchored on the node itself — the
scanned sibling list begins with the node. -/
theorem C10_amended (node : SyntaxNode) (prevSibs follSibs : List SyntaxNode)
    (doc : LspDocument) (st : DiagState)
    (h1 : isReturn node = false) (h2 : isStatement node = false)
    (h3 : isConditionalCommand node = false)
    (h4 : (collectEndError node st).2 = false)
    (h5 : (collectFunctionNames node doc st).2 = false)
    (h6 : (collectVariableNames node prevSibs follSibs doc st).2 = false)
    (h7 : (collectFunctionsScopes node doc st).2 = false) :
    ∃ rest, appendedDiagnostics st (diagnosticStep node prevSibs follSibs doc st)
      = createDiagnostic node ErrorCode.unreachableCode :: rest := by
  rw [diagnosticStep_first_wins, h4, h5, h6, h7]
  simp only [Bool.false_eq_true, if_false]
  rw [collectReturnError_appended, h1]
  simp only [Bool.false_eq_true, if_false, List.takeWhile_cons, h2, Bool.not_false, if_true,
    List.dropWhile_cons, h3]
  exact ⟨_, rfl⟩

/-- C10 amended witness at the command node `echo hi` with no siblings. -/
theorem C10_amended_witness :
    isReturn echoCmd = false
      ∧ isStatement echoCmd = false
      ∧ isConditionalCommand echoCmd = false
      ∧ (collectEndError echoCmd emptyState).2 = false
      ∧ (collectFunctionNames echoCmd plainDoc emptyState).2 = false
      ∧ (collectVariableNames echoCmd [] [] plainDoc emptyState).2 = false
      ∧ (collectFunctionsScopes echoCmd plainDoc emptyState).2 = false
      ∧ ∃ rest, appendedDiagnostics emptyState (diagnosticStep echoCmd [] [] plainDoc emptyState)
          = createDiagnostic echoCmd ErrorCode.unreachableCode :: rest :=
  ⟨rfl, rfl, rfl, rfl, rfl, rfl, rfl,
    C10_amended echoCmd [] [] plainDoc emptyState rfl rfl rfl rfl rfl rfl rfl⟩
